import Mathlib

/-!
Verification of the realtime audio data path of the mt32emu_qt JACK audio
driver (`mt32emu_qt/src/audiodrv/JACKAudioDriver.cpp`) and of the MIDI merge
ordering of the router (`mt32emu_qt/src/SynthRoute.h`).

The C++ code is shallowly embedded: pure computations become Lean functions
on `Nat`/`Int`, 32-bit unsigned arithmetic is made explicit with `% 2 ^ 32`,
the ring-buffer/semaphore interactions of one producer-loop iteration are
modelled as a function on an explicit state record, and the output buffers
written by the driver callback are modelled as lists of samples.
-/

/-- `static const uint CHANNEL_COUNT = 2;` (JACKAudioDriver.cpp line 24). -/
def CHANNEL_COUNT : Nat := 2

/-- `static const uint MINIMUM_JACK_BUFFER_COUNT = 2;` (JACKAudioDriver.cpp line 25). -/
def MINIMUM_JACK_BUFFER_COUNT : Nat := 2

/-- `static const uint FRAME_BYTE_SIZE = sizeof(float[CHANNEL_COUNT]);`
(JACKAudioDriver.cpp line 26): one frame is two 4-byte float samples. -/
def FRAME_BYTE_SIZE : Nat := 4 * CHANNEL_COUNT

/-- `MT32Emu::MAX_SAMPLES_PER_RUN`: constant of the mt32emu synthesis library
(not part of these sources), the engine's maximum per-call frame limit.
The claims below depend only on its being a fixed positive constant. -/
def MAX_SAMPLES_PER_RUN : Nat := 4096

/-- Modulus of the C++ `quint32` type used throughout the driver. -/
def UINT32_MOD : Nat := 2 ^ 32

/-- `JACKAudioProcessor::reallocateBuffer` (JACKAudioDriver.cpp lines 121-126):
the new ring buffer is allocated with capacity
`(bufferSizeFrames + 1) * FRAME_BYTE_SIZE` bytes. The returned value is that
byte capacity. -/
def reallocateBuffer (bufferSizeFrames : Nat) : Nat :=
  (bufferSizeFrames + 1) * FRAME_BYTE_SIZE

/-- The latency update performed in `JACKAudioStream::start`
(JACKAudioDriver.cpp line 158):
`if (audioLatencyFrames < jackBufferSizeFrames) audioLatencyFrames = jackBufferSizeFrames;`. -/
def startAudioLatency (audioLatencyFrames jackBufferSizeFrames : Nat) : Nat :=
  if audioLatencyFrames < jackBufferSizeFrames then jackBufferSizeFrames else audioLatencyFrames

/-- The latency update performed in `JACKAudioStream::onJACKBufferSizeChange`
(JACKAudioDriver.cpp lines 194-203): when no processor exists the call is
ignored (the current latency is kept), otherwise
`audioLatencyFrames = qMax(newBufferSize, configuredAudioLatencyFrames);`. -/
def onJACKBufferSizeChangeLatency (processorPresent : Bool)
    (newBufferSize configuredAudioLatencyFrames currentAudioLatencyFrames : Nat) : Nat :=
  if processorPresent then max newBufferSize configuredAudioLatencyFrames
  else currentAudioLatencyFrames

/-- Result of the stream-configuration part of `JACKAudioStream::start`
(JACKAudioDriver.cpp lines 155-168). -/
structure StartConfig where
  producerCreated : Bool
  audioLatencyFrames : Nat
  ringBufferCapacityBytes : Option Nat
  scratchBufferSamples : Option Nat
deriving DecidableEq

/-- `JACKAudioStream::start` (JACKAudioDriver.cpp lines 155-168): when the
MIDI session pointer is NULL and JACK processes in realtime, a
`JACKAudioProcessor` is created, the latency is raised to at least the JACK
buffer size and the ring buffer is allocated for that latency; otherwise
rendering is synchronous, `audioLatencyFrames = 0` and a scratch buffer of
`CHANNEL_COUNT * MT32Emu::MAX_SAMPLES_PER_RUN` floats is allocated. -/
def startAudioConfig (midiSessionIsNull realtimeProcessing : Bool)
    (audioLatencyFrames jackBufferSizeFrames : Nat) : StartConfig :=
  if midiSessionIsNull && realtimeProcessing then
    let lat := startAudioLatency audioLatencyFrames jackBufferSizeFrames
    { producerCreated := true
      audioLatencyFrames := lat
      ringBufferCapacityBytes := some (reallocateBuffer lat)
      scratchBufferSamples := none }
  else
    { producerCreated := false
      audioLatencyFrames := 0
      ringBufferCapacityBytes := none
      scratchBufferSamples := some (CHANNEL_COUNT * MAX_SAMPLES_PER_RUN) }

/-- The `framesInAudioBuffer` value computed in `JACKAudioStream::renderStreams`
(JACKAudioDriver.cpp lines 212-219). In the advanced-timing branch the source
computes `qMin(0U, jackClient->getBufferSize() - jackClient->getFramesSinceCycleStart())`
in `quint32` arithmetic, i.e. the subtraction wraps modulo `2 ^ 32`. -/
def framesInAudioBuffer (advancedTiming : Bool) (bufferSize framesSinceCycleStart : Nat) : Nat :=
  if advancedTiming then
    min 0 ((UINT32_MOD + bufferSize % UINT32_MOD - framesSinceCycleStart % UINT32_MOD) % UINT32_MOD)
  else 0

/-- C8: For every requested logical buffer size of n frames, the reallocated
ring buffer has capacity exactly (n + 1) frames, i.e. (n + 1) * 8 bytes where
one frame is two float samples, one frame larger than the requested logical
size. -/
theorem reallocateBuffer_capacity (n : Nat) :
    reallocateBuffer n = (n + 1) * 8 ∧
    reallocateBuffer n / FRAME_BYTE_SIZE = n + 1 ∧
    reallocateBuffer n = n * FRAME_BYTE_SIZE + FRAME_BYTE_SIZE := by
  refine ⟨rfl, ?_, ?_⟩
  · simp [reallocateBuffer, FRAME_BYTE_SIZE, CHANNEL_COUNT]
  · simp [reallocateBuffer, FRAME_BYTE_SIZE, CHANNEL_COUNT]; ring

/-- C9: In the advanced-timing branch of renderStreams, the value
min(0, bufferSize − framesSinceCycleStart) is always ≤ 0 for nonnegative
inputs when read over the integers; with the code's unsigned arithmetic, for
every pair of unsigned values updateTimeInfo receives framesInAudioBuffer
equal to 0. -/
theorem framesInAudioBuffer_always_zero (bufferSize framesSinceCycleStart : Nat) :
    framesInAudioBuffer true bufferSize framesSinceCycleStart = 0 ∧
    min 0 ((bufferSize : Int) - (framesSinceCycleStart : Int)) ≤ 0 ∧
    framesInAudioBuffer false bufferSize framesSinceCycleStart = 0 := by
  refine ⟨?_, ?_, rfl⟩
  · simp [framesInAudioBuffer]
  · exact min_le_left 0 _

/-- C4: For every driver-reported native buffer size (both at stream start in
producer mode and via onJACKBufferSizeChange with a processor present), the
resulting configured audio latency equals the maximum of the reported size
and the configured audioLatencyFrames; reported sizes below the configured
value leave the configured latency unchanged (configured 512 with reported
256 yields 512). -/
theorem configured_latency_is_max (reported configured current : Nat) :
    (startAudioConfig true true configured reported).audioLatencyFrames = max reported configured ∧
    onJACKBufferSizeChangeLatency true reported configured current = max reported configured ∧
    (reported ≤ configured →
      (startAudioConfig true true configured reported).audioLatencyFrames = configured ∧
      onJACKBufferSizeChangeLatency true reported configured current = configured) ∧
    (startAudioConfig true true 512 256).audioLatencyFrames = 512 ∧
    onJACKBufferSizeChangeLatency true 256 512 512 = 512 := by
  have hs : (startAudioConfig true true configured reported).audioLatencyFrames
      = startAudioLatency configured reported := rfl
  have hmax : startAudioLatency configured reported = max reported configured := by
    simp only [startAudioLatency]
    split <;> omega
  have ho : onJACKBufferSizeChangeLatency true reported configured current
      = max reported configured := by
    simp [onJACKBufferSizeChangeLatency]
  refine ⟨by rw [hs, hmax], ho, ?_, by decide, by decide⟩
  intro h
  exact ⟨by rw [hs, hmax]; omega, by rw [ho]; omega⟩

/-- Witness for C4 at the spec's concrete inputs: reported 256, configured 512. -/
theorem configured_latency_is_max_witness :
    (startAudioConfig true true 512 256).audioLatencyFrames = 512 ∧
    onJACKBufferSizeChangeLatency true 256 512 512 = 512 :=
  (configured_latency_is_max 256 512 512).2.2.1 (by decide)

/-- Operations issued by `JACKAudioProcessor::setBufferSize`
(JACKAudioDriver.cpp lines 107-119), in program order.
`acquireLatch` / `releaseLatch n` act on `bufferSizeUpdateLatch`,
`releaseRetrievals` acts on `bufferDataRetrievals`. -/
inductive CoordinatorOp where
  | acquireLatch : CoordinatorOp
  | releaseRetrievals : CoordinatorOp
  | reallocate : Nat → CoordinatorOp
  | releaseLatch : Nat → CoordinatorOp
deriving DecidableEq

/-- `JACKAudioProcessor::setBufferSize(bufferSizeFrames)` transcribed op by op
(JACKAudioDriver.cpp lines 107-119):
`bufferSizeUpdateLatch.acquire(); bufferDataRetrievals.release();
bufferSizeUpdateLatch.acquire(); reallocateBuffer(bufferSizeFrames);
bufferSizeUpdateLatch.release(2);`. -/
def setBufferSizeOps (bufferSizeFrames : Nat) : List CoordinatorOp :=
  [CoordinatorOp.acquireLatch, CoordinatorOp.releaseRetrievals, CoordinatorOp.acquireLatch,
   CoordinatorOp.reallocate bufferSizeFrames, CoordinatorOp.releaseLatch 2]

/-- `bufferSizeUpdateLatch(1)` in the `JACKAudioProcessor` constructor
(JACKAudioDriver.cpp line 74): the resize semaphore starts with one
available resource. -/
def latchInitialAvailable : Nat := 1

/-- An atomic operation on `bufferSizeUpdateLatch`, tagged by the thread
performing it: the coordinator (JACK buffer-size callback thread running
`setBufferSize`) or the processor thread (pause branch of `run`,
JACKAudioDriver.cpp lines 50-55). -/
inductive LatchEvent where
  | coordAcquire : LatchEvent
  | coordRelease : Nat → LatchEvent
  | procRelease : LatchEvent
  | procAcquire : LatchEvent
deriving DecidableEq

/-- Semaphore semantics of one latch event: an acquire on an empty semaphore
blocks (modelled as `none`, a deadlock in a fully ordered trace); a release
adds resources. -/
def applyLatchEvent : Option Nat → LatchEvent → Option Nat
  | none, _ => none
  | some c, LatchEvent.coordAcquire => if c = 0 then none else some (c - 1)
  | some c, LatchEvent.coordRelease n => some (c + n)
  | some c, LatchEvent.procRelease => some (c + 1)
  | some c, LatchEvent.procAcquire => if c = 0 then none else some (c - 1)

/-- Run a fully ordered trace of latch events from a starting count. -/
def runLatch (start : Option Nat) (events : List LatchEvent) : Option Nat :=
  events.foldl applyLatchEvent start

/-- The latch operations of `setBufferSize`, in program order (the projection
of `setBufferSizeOps` onto `bufferSizeUpdateLatch`). -/
def coordinatorLatchEvents : List LatchEvent :=
  [LatchEvent.coordAcquire, LatchEvent.coordAcquire, LatchEvent.coordRelease 2]

/-- The latch operations of the processor thread's pause branch
(JACKAudioDriver.cpp lines 53-54): `bufferSizeUpdateLatch.release();
bufferSizeUpdateLatch.acquire();`. -/
def processorPauseEvents : List LatchEvent :=
  [LatchEvent.procRelease, LatchEvent.procAcquire]

/-- The only interleaving of the two traces consistent with blocking: the
coordinator's second acquire can proceed only after the processor's release,
and the processor's acquire only after the coordinator's double release. -/
def handshakeLatchEvents : List LatchEvent :=
  [LatchEvent.coordAcquire, LatchEvent.procRelease, LatchEvent.coordAcquire,
   LatchEvent.coordRelease 2, LatchEvent.procAcquire]

/-- Whether a latch event belongs to the coordinator thread. -/
def isCoordinatorEvent : LatchEvent → Bool
  | LatchEvent.coordAcquire => true
  | LatchEvent.coordRelease _ => true
  | LatchEvent.procRelease => false
  | LatchEvent.procAcquire => false

/-- C3: setBufferSize performs exactly the sequence acquire-latch,
release-retrievals, acquire-latch, reallocate, release-latch-twice; the
latch is initialized to one available resource; and the forced interleaving
with the processor's pause branch never deadlocks and restores the latch to
its one-available steady state. -/
theorem setBufferSize_handshake (bufferSizeFrames : Nat) :
    setBufferSizeOps bufferSizeFrames =
      [CoordinatorOp.acquireLatch, CoordinatorOp.releaseRetrievals, CoordinatorOp.acquireLatch,
       CoordinatorOp.reallocate bufferSizeFrames, CoordinatorOp.releaseLatch 2] ∧
    latchInitialAvailable = 1 ∧
    handshakeLatchEvents.filter isCoordinatorEvent = coordinatorLatchEvents ∧
    handshakeLatchEvents.filter (fun e => !isCoordinatorEvent e) = processorPauseEvents ∧
    runLatch (some latchInitialAvailable) handshakeLatchEvents = some latchInitialAvailable := by
  exact ⟨rfl, rfl, by decide, by decide, by decide⟩

/-- State of one iteration of the processor loop `JACKAudioProcessor::run`
(JACKAudioDriver.cpp lines 44-67), observed at iteration entry.
`bytesAvailable` is the free-space count reported by
`buffer->writePointer(bytesAvailable, freeSpaceContiguous)` when the loop
reaches that call; `writeCursor` is the buffer's write position in bytes. -/
structure ProcIterState where
  stopProcessing : Bool
  latchAvailable : Nat
  retrievalsAvailable : Nat
  bytesAvailable : Nat
  writeCursor : Nat
deriving DecidableEq

/-- Outcome of one iteration of `JACKAudioProcessor::run`. `pausedForResize`
records whether the iteration took the buffer-size-update branch before
reaching the write pointer. -/
inductive IterOutcome where
  | stopped : IterOutcome
  | blocked : Nat → Bool → IterOutcome
  | rendered : Nat → Nat → Bool → IterOutcome
deriving DecidableEq

/-- One iteration of the `forever` loop of `JACKAudioProcessor::run`
(JACKAudioDriver.cpp lines 44-67): snapshot
`currentRetrievals = bufferDataRetrievals.available()` first; return if
`stopProcessing`; run the pause handshake when the latch shows zero; then
compute `framesToRender = bytesAvailable / FRAME_BYTE_SIZE` from the write
pointer; if zero, `bufferDataRetrievals.acquire(currentRetrievals + 1)`,
otherwise render `framesToRender` frames and
`advanceWritePointer(framesToRender * FRAME_BYTE_SIZE)`. -/
def runIteration (s : ProcIterState) : IterOutcome :=
  let currentRetrievals := s.retrievalsAvailable
  if s.stopProcessing then IterOutcome.stopped
  else
    let paused := s.latchAvailable = 0
    let framesToRender := s.bytesAvailable / FRAME_BYTE_SIZE
    if framesToRender = 0 then IterOutcome.blocked (currentRetrievals + 1) paused
    else IterOutcome.rendered framesToRender
      (s.writeCursor + framesToRender * FRAME_BYTE_SIZE) paused

/-- C5: Every iteration of the producer loop snapshots the available count of
data-retrieval signals at entry; if the ring buffer reports zero whole frames
of free space it blocks by acquiring (snapshot + 1) data-retrieval resources,
and if it reports a nonzero frame count it renders exactly that many whole
frames and advances the write cursor by exactly that many frames' bytes. -/
theorem run_iteration_snapshot_block_render (s : ProcIterState)
    (hstop : s.stopProcessing = false) :
    (s.bytesAvailable / FRAME_BYTE_SIZE = 0 →
      runIteration s = IterOutcome.blocked (s.retrievalsAvailable + 1)
        (decide (s.latchAvailable = 0))) ∧
    (0 < s.bytesAvailable / FRAME_BYTE_SIZE →
      runIteration s = IterOutcome.rendered (s.bytesAvailable / FRAME_BYTE_SIZE)
        (s.writeCursor + (s.bytesAvailable / FRAME_BYTE_SIZE) * FRAME_BYTE_SIZE)
        (decide (s.latchAvailable = 0))) := by
  constructor
  · intro hz
    simp [runIteration, hstop, hz]
  · intro hp
    have hz : ¬ s.bytesAvailable / FRAME_BYTE_SIZE = 0 := by omega
    simp [runIteration, hstop, hz]

/-- Witness for C5: a concrete non-stopped state with 20 free bytes, i.e. two
whole frames, a snapshot of 3 retrievals and write cursor 16. -/
theorem run_iteration_snapshot_block_render_witness :
    runIteration { stopProcessing := false, latchAvailable := 1, retrievalsAvailable := 3,
                   bytesAvailable := 20, writeCursor := 16 }
      = IterOutcome.rendered 2 32 false := by
  have h := (run_iteration_snapshot_block_render
    { stopProcessing := false, latchAvailable := 1, retrievalsAvailable := 3,
      bytesAvailable := 20, writeCursor := 16 } rfl).2 (by decide)
  simpa using h

/-- `JACKAudioProcessor::getAvailableChunk` (JACKAudioDriver.cpp lines 91-97):
the requested chunk size is clamped to the whole frames available for
reading, `chunkSizeFrames = qMin(chunkSizeFrames, framesAvailable)`. -/
def getAvailableChunk (chunkSizeFrames framesAvailable : Nat) : Nat :=
  min chunkSizeFrames framesAvailable

/-- The `framesToRender` value of one iteration of the copy loop of
`JACKAudioStream::renderStreams` (JACKAudioDriver.cpp lines 221-238): in
producer mode it is `framesLeft` clamped by `getAvailableChunk`
(`framesAvailable` frames being readable in the ring buffer at that moment),
in synchronous mode it is `qMin(framesLeft, MT32Emu::MAX_SAMPLES_PER_RUN)`. -/
def framesToRenderChunk (processorActive : Bool) (framesAvailable framesLeft : Nat) : Nat :=
  if processorActive then getAvailableChunk framesLeft framesAvailable
  else min framesLeft MAX_SAMPLES_PER_RUN

/-- A non-underrun iteration renders at least one frame: if the loop is not
done (`framesLeft ≠ 0`) and the producer-mode underrun condition does not
hold, the chunk is nonempty. -/
theorem framesToRenderChunk_pos (processorActive : Bool) (framesAvailable framesLeft : Nat)
    (hL : ¬framesLeft = 0)
    (h : ¬(processorActive = true ∧
        framesToRenderChunk processorActive framesAvailable framesLeft = 0)) :
    0 < framesToRenderChunk processorActive framesAvailable framesLeft := by
  cases processorActive with
  | false =>
    have he : framesToRenderChunk false framesAvailable framesLeft
        = min framesLeft MAX_SAMPLES_PER_RUN := rfl
    rw [he]
    have hmax : (0:Nat) < MAX_SAMPLES_PER_RUN := by decide
    omega
  | true =>
    have he : framesToRenderChunk true framesAvailable framesLeft
        = min framesLeft framesAvailable := rfl
    have h' : ¬(min framesLeft framesAvailable = 0) := fun hm => h ⟨rfl, by rw [he]; exact hm⟩
    rw [he]
    omega

/-- Result of the copy loop of `JACKAudioStream::renderStreams`: samples
appended to the left and right output buffers, the sizes of the rendered
chunks in order, and whether the loop ran to completion (`completed = false`
records the early `return` of the underrun path). -/
structure LoopResult where
  left : List Int
  right : List Int
  chunks : List Nat
  completed : Bool
deriving DecidableEq

/-- The `for (quint32 framesLeft = totalFrameCount; framesLeft > 0;)` loop of
`JACKAudioStream::renderStreams` (JACKAudioDriver.cpp lines 221-245).
`framesAvailable i` is the number of whole frames readable in the ring
buffer when iteration `i` calls `getAvailableChunk` (producer mode);
`frameData k` is the k-th stereo frame of the stream of samples delivered by
the ring buffer (producer mode) or by `synthRoute.render` into the scratch
buffer (synchronous mode); `pos` is the index of the next frame to copy.
In producer mode a zero-frame chunk fills the remaining `framesLeft` frames
of both output buffers with silence and returns early; otherwise the chunk
is copied to the outputs and the loop continues on the remaining frames. -/
def renderLoop (processorActive : Bool) (framesAvailable : Nat → Nat)
    (frameData : Nat → Int × Int) (iter pos framesLeft : Nat) : LoopResult :=
  if h0 : framesLeft = 0 then
    { left := [], right := [], chunks := [], completed := true }
  else if h1 : processorActive = true ∧
      framesToRenderChunk processorActive (framesAvailable iter) framesLeft = 0 then
    { left := List.replicate framesLeft 0, right := List.replicate framesLeft 0,
      chunks := [], completed := false }
  else
    let framesToRender := framesToRenderChunk processorActive (framesAvailable iter) framesLeft
    let rest := renderLoop processorActive framesAvailable frameData (iter + 1)
      (pos + framesToRender) (framesLeft - framesToRender)
    { left := ((List.range framesToRender).map fun i => (frameData (pos + i)).1) ++ rest.left,
      right := ((List.range framesToRender).map fun i => (frameData (pos + i)).2) ++ rest.right,
      chunks := framesToRender :: rest.chunks,
      completed := rest.completed }
termination_by framesLeft
decreasing_by
  have := framesToRenderChunk_pos processorActive (framesAvailable iter) framesLeft h0 h1
  omega

/-- Observable result of `JACKAudioStream::renderStreams`. -/
structure RenderResult where
  left : List Int
  right : List Int
  renderedFramesCount : Nat
deriving DecidableEq

/-- `JACKAudioStream::renderStreams` (JACKAudioDriver.cpp lines 210-247): run
the copy loop over `totalFrameCount` frames; the trailing statement
`renderedFramesCount += totalFrameCount` executes only when the loop
completes, because the underrun path returns from inside the loop. -/
def renderStreams (processorActive : Bool) (framesAvailable : Nat → Nat)
    (frameData : Nat → Int × Int) (renderedFramesCount totalFrameCount : Nat) : RenderResult :=
  let r := renderLoop processorActive framesAvailable frameData 0 0 totalFrameCount
  { left := r.left, right := r.right,
    renderedFramesCount :=
      if r.completed then renderedFramesCount + totalFrameCount else renderedFramesCount }

theorem renderLoop_zero (p : Bool) (fa : Nat → Nat) (fd : Nat → Int × Int) (iter pos : Nat) :
    renderLoop p fa fd iter pos 0 =
      { left := [], right := [], chunks := [], completed := true } := by
  rw [renderLoop]
  rfl

theorem renderLoop_underrun (fa : Nat → Nat) (fd : Nat → Int × Int) (iter pos L : Nat)
    (hL : ¬L = 0) (hz : framesToRenderChunk true (fa iter) L = 0) :
    renderLoop true fa fd iter pos L =
      { left := List.replicate L 0, right := List.replicate L 0,
        chunks := [], completed := false } := by
  rw [renderLoop]
  rw [dif_neg hL, dif_pos ⟨rfl, hz⟩]

theorem renderLoop_step (p : Bool) (fa : Nat → Nat) (fd : Nat → Int × Int) (iter pos L : Nat)
    (hL : ¬L = 0) (h1 : ¬(p = true ∧ framesToRenderChunk p (fa iter) L = 0)) :
    renderLoop p fa fd iter pos L =
      { left := ((List.range (framesToRenderChunk p (fa iter) L)).map
          fun i => (fd (pos + i)).1) ++
          (renderLoop p fa fd (iter + 1) (pos + framesToRenderChunk p (fa iter) L)
            (L - framesToRenderChunk p (fa iter) L)).left,
        right := ((List.range (framesToRenderChunk p (fa iter) L)).map
          fun i => (fd (pos + i)).2) ++
          (renderLoop p fa fd (iter + 1) (pos + framesToRenderChunk p (fa iter) L)
            (L - framesToRenderChunk p (fa iter) L)).right,
        chunks := framesToRenderChunk p (fa iter) L ::
          (renderLoop p fa fd (iter + 1) (pos + framesToRenderChunk p (fa iter) L)
            (L - framesToRenderChunk p (fa iter) L)).chunks,
        completed := (renderLoop p fa fd (iter + 1) (pos + framesToRenderChunk p (fa iter) L)
            (L - framesToRenderChunk p (fa iter) L)).completed } := by
  rw [renderLoop]
  rw [dif_neg hL, dif_neg h1]

/-- Every chunk fits in the remaining frame count. -/
theorem framesToRenderChunk_le (p : Bool) (framesAvailable framesLeft : Nat) :
    framesToRenderChunk p framesAvailable framesLeft ≤ framesLeft := by
  cases p with
  | false =>
    have he : framesToRenderChunk false framesAvailable framesLeft
        = min framesLeft MAX_SAMPLES_PER_RUN := rfl
    rw [he]; omega
  | true =>
    have he : framesToRenderChunk true framesAvailable framesLeft
        = min framesLeft framesAvailable := rfl
    rw [he]; omega

/-- The copy loop always writes exactly `framesLeft` samples to each output
buffer: completed runs write the rendered frames, the underrun path fills the
whole remainder with silence. -/
theorem renderLoop_length (p : Bool) (fa : Nat → Nat) (fd : Nat → Int × Int) :
    ∀ L iter pos, (renderLoop p fa fd iter pos L).left.length = L ∧
      (renderLoop p fa fd iter pos L).right.length = L := by
  intro L
  induction L using Nat.strong_induction_on with
  | _ L ih =>
    intro iter pos
    by_cases h0 : L = 0
    · subst h0
      rw [renderLoop_zero]
      exact ⟨rfl, rfl⟩
    by_cases h1 : p = true ∧ framesToRenderChunk p (fa iter) L = 0
    · rcases h1 with ⟨hp, hz⟩
      subst hp
      rw [renderLoop_underrun fa fd iter pos L h0 hz]
      simp
    · have hpos := framesToRenderChunk_pos p (fa iter) L h0 h1
      have hle := framesToRenderChunk_le p (fa iter) L
      have hrec := ih (L - framesToRenderChunk p (fa iter) L) (by omega) (iter + 1)
        (pos + framesToRenderChunk p (fa iter) L)
      rw [renderLoop_step p fa fd iter pos L h0 h1]
      simp only [List.length_append, List.length_map, List.length_range, hrec.1, hrec.2]
      omega

/-- In synchronous mode the copy loop always runs to completion. -/
theorem renderLoop_sync_completed (fa : Nat → Nat) (fd : Nat → Int × Int) :
    ∀ L iter pos, (renderLoop false fa fd iter pos L).completed = true := by
  intro L
  induction L using Nat.strong_induction_on with
  | _ L ih =>
    intro iter pos
    by_cases h0 : L = 0
    · subst h0; rw [renderLoop_zero]
    · have h1 : ¬(false = true ∧ framesToRenderChunk false (fa iter) L = 0) :=
        fun hc => Bool.noConfusion hc.1
      have hpos := framesToRenderChunk_pos false (fa iter) L h0 h1
      rw [renderLoop_step false fa fd iter pos L h0 h1]
      exact ih (L - framesToRenderChunk false (fa iter) L) (by omega) (iter + 1)
        (pos + framesToRenderChunk false (fa iter) L)

/-- In producer mode the copy loop runs to completion whenever every chunk
request finds at least one readable frame. -/
theorem renderLoop_producer_completed (fa : Nat → Nat) (fd : Nat → Int × Int)
    (hfa : ∀ i, 0 < fa i) :
    ∀ L iter pos, (renderLoop true fa fd iter pos L).completed = true := by
  intro L
  induction L using Nat.strong_induction_on with
  | _ L ih =>
    intro iter pos
    by_cases h0 : L = 0
    · subst h0; rw [renderLoop_zero]
    · have h1 : ¬(true = true ∧ framesToRenderChunk true (fa iter) L = 0) := by
        intro hc
        have he : framesToRenderChunk true (fa iter) L = min L (fa iter) := rfl
        have := hfa iter
        rw [he] at hc
        omega
      have hpos := framesToRenderChunk_pos true (fa iter) L h0 h1
      rw [renderLoop_step true fa fd iter pos L h0 h1]
      exact ih (L - framesToRenderChunk true (fa iter) L) (by omega) (iter + 1)
        (pos + framesToRenderChunk true (fa iter) L)

/-- In synchronous mode the chunk sizes sum to the requested frame count and
each chunk is a whole, nonempty chunk of at most `MAX_SAMPLES_PER_RUN`
frames. -/
theorem renderLoop_sync_chunks (fa : Nat → Nat) (fd : Nat → Int × Int) :
    ∀ L iter pos, (renderLoop false fa fd iter pos L).chunks.sum = L ∧
      ∀ c ∈ (renderLoop false fa fd iter pos L).chunks,
        0 < c ∧ c ≤ MAX_SAMPLES_PER_RUN := by
  intro L
  induction L using Nat.strong_induction_on with
  | _ L ih =>
    intro iter pos
    by_cases h0 : L = 0
    · subst h0
      rw [renderLoop_zero]
      exact ⟨rfl, by intro c hc; cases hc⟩
    · have h1 : ¬(false = true ∧ framesToRenderChunk false (fa iter) L = 0) :=
        fun hc => Bool.noConfusion hc.1
      have hpos := framesToRenderChunk_pos false (fa iter) L h0 h1
      have hle := framesToRenderChunk_le false (fa iter) L
      have hmax : framesToRenderChunk false (fa iter) L ≤ MAX_SAMPLES_PER_RUN := by
        have he : framesToRenderChunk false (fa iter) L
            = min L MAX_SAMPLES_PER_RUN := rfl
        rw [he]; omega
      have hrec := ih (L - framesToRenderChunk false (fa iter) L) (by omega) (iter + 1)
        (pos + framesToRenderChunk false (fa iter) L)
      rw [renderLoop_step false fa fd iter pos L h0 h1]
      constructor
      · simp only [List.sum_cons, hrec.1]
        omega
      · intro c hc
        rcases List.mem_cons.mp hc with hc | hc
        · subst hc; exact ⟨hpos, hmax⟩
        · exact hrec.2 c hc

/-- C2: For every requested frame count N, if a RenderProducer is active and
zero frames are available in the ring buffer when renderStreams is invoked,
then renderStreams writes exactly N silence samples into each of the left
and right output buffers and returns at once without rendering any chunk. -/
theorem renderStreams_underrun_silence (fa : Nat → Nat) (fd : Nat → Int × Int) (rfc N : Nat)
    (h : fa 0 = 0) :
    (renderStreams true fa fd rfc N).left = List.replicate N 0 ∧
    (renderStreams true fa fd rfc N).right = List.replicate N 0 ∧
    (renderStreams true fa fd rfc N).left.length = N ∧
    (renderLoop true fa fd 0 0 N).chunks = [] := by
  by_cases hN : N = 0
  · subst hN
    refine ⟨?_, ?_, ?_, ?_⟩ <;> simp [renderStreams, renderLoop_zero]
  · have hz : framesToRenderChunk true (fa 0) N = 0 := by
      have he : framesToRenderChunk true (fa 0) N = min N (fa 0) := rfl
      rw [he, h]
      omega
    have hu := renderLoop_underrun fa fd 0 0 N hN hz
    refine ⟨?_, ?_, ?_, ?_⟩ <;> simp [renderStreams, hu]

/-- Witness for C2: a request of 3 frames with an empty ring buffer yields
three silence samples per channel. -/
theorem renderStreams_underrun_silence_witness :
    (renderStreams true (fun _ => 0) (fun _ => (1, 2)) 7 3).left = List.replicate 3 0 ∧
    (renderStreams true (fun _ => 0) (fun _ => (1, 2)) 7 3).right = List.replicate 3 0 :=
  ⟨(renderStreams_underrun_silence (fun _ => 0) (fun _ => (1, 2)) 7 3 rfl).1,
   (renderStreams_underrun_silence (fun _ => 0) (fun _ => (1, 2)) 7 3 rfl).2.1⟩

/-- C6 counterexample: invoking renderStreams for 5 frames with an active
producer and an empty ring buffer takes the underrun path and leaves
renderedFramesCount at 0 instead of advancing it to 0 + 5 as the claim
states. -/
theorem renderStreams_underrun_counter_cex :
    (renderStreams true (fun _ => 0) (fun _ => (0, 0)) 0 5).renderedFramesCount = 0 ∧
    (renderStreams true (fun _ => 0) (fun _ => (0, 0)) 0 5).renderedFramesCount ≠ 0 + 5 := by
  have hz : framesToRenderChunk true ((fun _ => 0) 0) 5 = 0 := by decide
  have hu := renderLoop_underrun (fun _ => 0) (fun _ => (0, 0)) 0 0 5 (by decide) hz
  constructor
  · simp only [renderStreams, hu]
    simp
  · simp only [renderStreams, hu]
    simp

/-- C6 amended: renderStreams advances renderedFramesCount by exactly N on
every invocation whose copy loop runs to completion — always in synchronous
mode, and in producer mode whenever every chunk request finds at least one
readable frame — while an invocation that takes the underrun path returns
early and leaves the counter unchanged. -/
theorem renderedFramesCount_advance (fa : Nat → Nat) (fd : Nat → Int × Int) (rfc N : Nat) :
    (renderStreams false fa fd rfc N).renderedFramesCount = rfc + N ∧
    ((∀ i, 0 < fa i) → (renderStreams true fa fd rfc N).renderedFramesCount = rfc + N) ∧
    (fa 0 = 0 → 0 < N → (renderStreams true fa fd rfc N).renderedFramesCount = rfc) := by
  refine ⟨?_, ?_, ?_⟩
  · simp [renderStreams, renderLoop_sync_completed fa fd N 0 0]
  · intro hfa
    simp [renderStreams, renderLoop_producer_completed fa fd hfa N 0 0]
  · intro h hN
    have hz : framesToRenderChunk true (fa 0) N = 0 := by
      have he : framesToRenderChunk true (fa 0) N = min N (fa 0) := rfl
      rw [he, h]
      omega
    have hu := renderLoop_underrun fa fd 0 0 N (by omega) hz
    simp [renderStreams, hu]

/-- Witness for C6 amended: a completed synchronous run of 3 frames advances
the counter from 2 to 5, a completed producer run advances it from 0 to 4,
and an underrun run of 3 frames leaves it at 2. -/
theorem renderedFramesCount_advance_witness :
    (renderStreams false (fun _ => 0) (fun _ => (0, 0)) 2 3).renderedFramesCount = 2 + 3 ∧
    (renderStreams true (fun _ => 1) (fun _ => (0, 0)) 0 4).renderedFramesCount = 0 + 4 ∧
    (renderStreams true (fun _ => 0) (fun _ => (0, 0)) 2 3).renderedFramesCount = 2 :=
  ⟨(renderedFramesCount_advance (fun _ => 0) (fun _ => (0, 0)) 2 3).1,
   (renderedFramesCount_advance (fun _ => 1) (fun _ => (0, 0)) 0 4).2.1
     (fun _ => Nat.one_pos),
   (renderedFramesCount_advance (fun _ => 0) (fun _ => (0, 0)) 2 3).2.2 rfl (by decide)⟩

/-- C7: When the stream starts in synchronous mode (no RenderProducer), the
configured audio latency is set to zero and a scratch buffer of
CHANNEL_COUNT * MAX_SAMPLES_PER_RUN samples is allocated; renderStreams then
loops in whole nonempty chunks of at most MAX_SAMPLES_PER_RUN frames whose
sizes sum to the requested count, satisfying the full request. -/
theorem synchronous_mode_render (midiSessionIsNull realtimeProcessing : Bool)
    (cfg jbs : Nat) (fa : Nat → Nat) (fd : Nat → Int × Int) (rfc N : Nat)
    (h : ¬(midiSessionIsNull = true ∧ realtimeProcessing = true)) :
    (startAudioConfig midiSessionIsNull realtimeProcessing cfg jbs).producerCreated = false ∧
    (startAudioConfig midiSessionIsNull realtimeProcessing cfg jbs).audioLatencyFrames = 0 ∧
    (startAudioConfig midiSessionIsNull realtimeProcessing cfg jbs).scratchBufferSamples
      = some (CHANNEL_COUNT * MAX_SAMPLES_PER_RUN) ∧
    (renderStreams false fa fd rfc N).left.length = N ∧
    (renderStreams false fa fd rfc N).right.length = N ∧
    (renderLoop false fa fd 0 0 N).chunks.sum = N ∧
    ∀ c ∈ (renderLoop false fa fd 0 0 N).chunks, 0 < c ∧ c ≤ MAX_SAMPLES_PER_RUN := by
  have hb : (midiSessionIsNull && realtimeProcessing) = false := by
    cases midiSessionIsNull <;> cases realtimeProcessing <;> simp_all
  have hcfg : startAudioConfig midiSessionIsNull realtimeProcessing cfg jbs =
      { producerCreated := false
        audioLatencyFrames := 0
        ringBufferCapacityBytes := none
        scratchBufferSamples := some (CHANNEL_COUNT * MAX_SAMPLES_PER_RUN) } := by
    simp [startAudioConfig, hb]
  have hlen := renderLoop_length false fa fd N 0 0
  have hch := renderLoop_sync_chunks fa fd N 0 0
  exact ⟨by rw [hcfg], by rw [hcfg], by rw [hcfg],
    by simpa [renderStreams] using hlen.1, by simpa [renderStreams] using hlen.2,
    hch.1, hch.2⟩

/-- Witness for C7: a non-realtime start (session bound) yields zero latency
and the scratch buffer; a 3-frame synchronous request is fully satisfied. -/
theorem synchronous_mode_render_witness :
    (startAudioConfig true false 512 256).audioLatencyFrames = 0 ∧
    (startAudioConfig true false 512 256).scratchBufferSamples
      = some (CHANNEL_COUNT * MAX_SAMPLES_PER_RUN) ∧
    (renderStreams false (fun _ => 0) (fun _ => (0, 0)) 0 3).left.length = 3 :=
  ⟨(synchronous_mode_render true false 512 256 (fun _ => 0) (fun _ => (0, 0)) 0 3
      (by simp)).2.1,
   (synchronous_mode_render true false 512 256 (fun _ => 0) (fun _ => (0, 0)) 0 3
      (by simp)).2.2.1,
   (synchronous_mode_render true false 512 256 (fun _ => 0) (fun _ => (0, 0)) 0 3
      (by simp)).2.2.2.1⟩

/-- C10: For every requested frame count, renderStreams terminates: while
frames remain, an iteration either takes the underrun return (producer mode
with a zero-frame chunk) or renders a nonempty chunk, strictly decreasing
the remaining frame count. -/
theorem renderStreams_loop_terminates (processorActive : Bool)
    (framesAvailable framesLeft : Nat) (h : 0 < framesLeft) :
    (processorActive = true ∧
      framesToRenderChunk processorActive framesAvailable framesLeft = 0) ∨
    (0 < framesToRenderChunk processorActive framesAvailable framesLeft ∧
      framesLeft - framesToRenderChunk processorActive framesAvailable framesLeft
        < framesLeft) := by
  by_cases hc : processorActive = true ∧
      framesToRenderChunk processorActive framesAvailable framesLeft = 0
  · exact Or.inl hc
  · have := framesToRenderChunk_pos processorActive framesAvailable framesLeft (by omega) hc
    exact Or.inr ⟨this, by omega⟩

/-- Witness for C10: in synchronous mode with 3 frames left the chunk is
nonempty and the remaining count strictly decreases. -/
theorem renderStreams_loop_terminates_witness :
    (false = true ∧ framesToRenderChunk false 0 3 = 0) ∨
    (0 < framesToRenderChunk false 0 3 ∧ 3 - framesToRenderChunk false 0 3 < 3) :=
  renderStreams_loop_terminates false 0 3 (by decide)

/-- A queued MIDI event argument of `SynthRoute::pushMIDIShortMessage` /
`pushMIDISysex` (SynthRoute.h lines 67-68): the pushing session, the target
timestamp in the shared monotonic clock domain, and the global arrival
(insertion) index that breaks timestamp ties. -/
structure MidiEvent where
  session : Nat
  timestamp : Nat
  arrival : Nat
deriving DecidableEq

/-- Dispatch order of merged MIDI events: nondecreasing timestamp, ties
broken by arrival (insertion) order. -/
def evLE (a b : MidiEvent) : Prop :=
  a.timestamp < b.timestamp ∨ (a.timestamp = b.timestamp ∧ a.arrival ≤ b.arrival)

instance : DecidableRel evLE := fun a b => by
  unfold evLE
  infer_instance

instance : IsTotal MidiEvent evLE :=
  ⟨fun a b => by unfold evLE; omega⟩

instance : IsTrans MidiEvent evLE :=
  ⟨fun a b c hab hbc => by unfold evLE at hab hbc ⊢; omega⟩

/-- Modelled from the spec: the body of `SynthRoute::mergeMidiStreams` is not
among these sources — SynthRoute.h line 44 only declares
`void mergeMidiStreams(uint renderingPassFrameLength);`. Per the spec's
multi-mode routing rule, a render pass spanning `passLength` merges the
per-session pending queues into one global timestamp ordering and dispatches
exactly the events whose timestamp is at most `currentTime + passLength`,
ties broken by insertion order; every later event stays queued for a
subsequent pass. The result is `(dispatched, deferred)`. -/
def mergeMidiStreams (sessions : List (List MidiEvent)) (currentTime passLength : Nat) :
    List MidiEvent × List MidiEvent :=
  let deadline := currentTime + passLength
  let pending := sessions.flatten
  (List.insertionSort evLE (pending.filter fun e => decide (e.timestamp ≤ deadline)),
   pending.filter fun e => decide (deadline < e.timestamp))

/-- C1: In multi mode, a render pass spanning length L dispatches exactly the
pending events with timestamp at most currentTime + L, in nondecreasing
timestamp order with ties broken by insertion order, defers every later
event, and on sessions A (t=0,10,30) and B (t=5,20) with a pass spanning
[0,25) dispatches t=0(A), 5(B), 10(A), 20(B) and defers t=30. -/
theorem mergeMidiStreams_dispatch_order (sessions : List (List MidiEvent))
    (currentTime passLength : Nat) :
    (∀ e ∈ (mergeMidiStreams sessions currentTime passLength).1,
      e.timestamp ≤ currentTime + passLength) ∧
    (∀ e ∈ (mergeMidiStreams sessions currentTime passLength).2,
      currentTime + passLength < e.timestamp) ∧
    List.Sorted evLE (mergeMidiStreams sessions currentTime passLength).1 ∧
    ((mergeMidiStreams sessions currentTime passLength).1).Perm
      (sessions.flatten.filter fun e => decide (e.timestamp ≤ currentTime + passLength)) ∧
    ((mergeMidiStreams sessions currentTime passLength).1 ++
      (mergeMidiStreams sessions currentTime passLength).2).Perm sessions.flatten ∧
    mergeMidiStreams [[⟨0, 0, 0⟩, ⟨0, 10, 2⟩, ⟨0, 30, 4⟩], [⟨1, 5, 1⟩, ⟨1, 20, 3⟩]] 0 25 =
      ([⟨0, 0, 0⟩, ⟨1, 5, 1⟩, ⟨0, 10, 2⟩, ⟨1, 20, 3⟩], [⟨0, 30, 4⟩]) := by
  have hperm : ((mergeMidiStreams sessions currentTime passLength).1).Perm
      (sessions.flatten.filter fun e =>
        decide (e.timestamp ≤ currentTime + passLength)) :=
    List.perm_insertionSort evLE _
  refine ⟨?_, ?_, ?_, hperm, ?_, by decide⟩
  · intro e he
    have hmem := hperm.mem_iff.mp he
    have := List.mem_filter.mp hmem
    exact of_decide_eq_true this.2
  · intro e he
    have := List.mem_filter.mp he
    exact of_decide_eq_true this.2
  · exact List.sorted_insertionSort evLE _
  · have hneg : ∀ e ∈ sessions.flatten,
        (decide (currentTime + passLength < e.timestamp))
          = !decide (e.timestamp ≤ currentTime + passLength) := by
      intro e _
      by_cases h : e.timestamp ≤ currentTime + passLength
      · simp [h, Nat.not_lt.mpr h]
      · simp [h, Nat.lt_of_not_le h]
    have h2 : (mergeMidiStreams sessions currentTime passLength).2
        = sessions.flatten.filter fun e =>
            !decide (e.timestamp ≤ currentTime + passLength) := by
      exact List.filter_congr hneg
    rw [h2]
    exact (hperm.append_right _).trans (List.filter_append_perm _ _)

/-- Witness for C1: the first dispatched event of the spec's example, session
A's event at t = 0, indeed falls within the pass deadline 0 + 25. -/
theorem mergeMidiStreams_dispatch_order_witness :
    (⟨0, 0, 0⟩ : MidiEvent).timestamp ≤ 0 + 25 :=
  (mergeMidiStreams_dispatch_order
      [[⟨0, 0, 0⟩, ⟨0, 10, 2⟩, ⟨0, 30, 4⟩], [⟨1, 5, 1⟩, ⟨1, 20, 3⟩]] 0 25).1
    ⟨0, 0, 0⟩ (by decide)
